import Mathlib

/-!
Shallow embedding of the snappost generator core (`postGenarator.py`) and
verification of its specification claims.

Python strings are modelled as Lean `String` (manipulated through their
character lists so that everything reduces in the kernel), machine
integers as `Int`/`Nat`, fallible code as `Except`/`Option`, and the
pieces of the program that touch the outside world (HTTP, the filesystem,
Pillow's text measurement) as explicit environment parameters.
-/

namespace Snappost

/-! ## Python string primitives -/

/-- Python `str.strip()`: drop leading and trailing whitespace. -/
def pyStrip (s : String) : String :=
  String.mk (((s.data.dropWhile Char.isWhitespace).reverse.dropWhile Char.isWhitespace).reverse)

/-- Helper for `str.split()` with no separator: accumulate the current word
(reversed) while scanning. -/
def splitWsAux : List Char → List Char → List String
  | [], acc => if acc = [] then [] else [String.mk acc.reverse]
  | c :: cs, acc =>
    if c.isWhitespace then
      (if acc = [] then splitWsAux cs [] else String.mk acc.reverse :: splitWsAux cs [])
    else splitWsAux cs (c :: acc)

/-- Python `str.split()`: split on whitespace runs, dropping empty tokens. -/
def pySplit (s : String) : List String := splitWsAux s.data []

/-- Python `str.split(sep)` for a single-character separator: keeps empty chunks. -/
def splitOnChar (sep : Char) : List Char → List (List Char)
  | [] => [[]]
  | c :: cs =>
    if c = sep then [] :: splitOnChar sep cs
    else
      match splitOnChar sep cs with
      | [] => [[c]]
      | h :: t => (c :: h) :: t

/-- Python `str.lower()` (ASCII, as in the source's inputs). -/
def pyLower (s : String) : String := String.mk (s.data.map Char.toLower)

/-- Python `str.upper()` (ASCII). -/
def pyUpper (s : String) : String := String.mk (s.data.map Char.toUpper)

/-- Python `sub in s`: substring membership. -/
def containsSub (s sub : String) : Bool :=
  let rec go : List Char → Bool
    | [] => sub.data.isPrefixOf []
    | l@(_ :: rest) => sub.data.isPrefixOf l || go rest
  go s.data

/-- Character-list lexicographic comparison, mirroring Python `str <` on
code points; used to model `sorted(...)`. -/
def charListLt : List Char → List Char → Bool
  | [], [] => false
  | [], _ :: _ => true
  | _ :: _, [] => false
  | a :: as, b :: bs => if a < b then true else if b < a then false else charListLt as bs

def strLt (a b : String) : Bool := charListLt a.data b.data

/-- Insertion into a lexicographically sorted list. -/
def insertSorted (s : String) : List String → List String
  | [] => [s]
  | t :: ts => if strLt t s then t :: insertSorted s ts else s :: t :: ts

/-- Python `sorted(strings)`. -/
def sortStrings (l : List String) : List String := l.foldr insertSorted []

/-- Python `sep.join(strings)`. -/
def joinSep (sep : String) : List String → String
  | [] => ""
  | [x] => x
  | x :: y :: rest => x ++ sep ++ joinSep sep (y :: rest)

/-- The apostrophe character (kept out of string literals). -/
def apos : Char := Char.ofNat 39

/-- The double-quote character (kept out of character literals). -/
def quoteChar : Char := Char.ofNat 34

/-! ## `Orientation` -/

inductive Orientation where
  | landscape
  | portrait
deriving DecidableEq

namespace Orientation

/-- The enum's string value. -/
def value : Orientation → String
  | landscape => "landscape"
  | portrait => "portrait"

/-- Python `Orientation(s)`: enum lookup by value; raises (here: `none`) on an
unknown value. -/
def ofValue (s : String) : Option Orientation :=
  if s = "landscape" then some landscape
  else if s = "portrait" then some portrait
  else none

/-- Source `Orientation.from_size`: landscape iff `width >= height`. -/
def from_size (width height : Int) : Orientation :=
  if width ≥ height then landscape else portrait

end Orientation

/-! ## Python values for the (de)serialization dictionaries -/

/-- A Python value as it appears in the layout dictionaries produced and
consumed by `to_dict` / `from_dict`. -/
inductive PyVal where
  | str : String → PyVal
  | int : Int → PyVal
  | bool : Bool → PyVal
  | pynone : PyVal
  | dict : List (String × PyVal) → PyVal

/-- Python `d[k]` / `d.get(k)` on a dictionary represented as an association list. -/
def assocGet (m : List (String × PyVal)) (k : String) : Option PyVal :=
  match m with
  | [] => none
  | (k2, v) :: rest => if k2 = k then some v else assocGet rest k

/-- Python truthiness of a value (`if badge:` and friends). -/
def pyTruthy : PyVal → Bool
  | .str s => s ≠ ""
  | .int n => n ≠ 0
  | .bool b => b
  | .pynone => false
  | .dict l => !l.isEmpty

/-- Python `int(v)` restricted to the values `to_dict` can produce. -/
def pyAsInt : PyVal → Option Int
  | .int n => some n
  | .bool b => some (if b then 1 else 0)
  | _ => none

/-- Extract a string value (the source stores these fields untouched). -/
def pyAsStr : PyVal → Option String
  | .str s => some s
  | _ => none

/-- Python `bool(v)`. -/
def pyAsBool (v : PyVal) : Bool := pyTruthy v

/-! ## Geometry and style data model -/

structure Rectangle where
  x : Int
  y : Int
  width : Int
  height : Int
deriving DecidableEq

namespace Rectangle

def to_dict (r : Rectangle) : List (String × PyVal) :=
  [("x", .int r.x), ("y", .int r.y), ("width", .int r.width), ("height", .int r.height)]

/-- Source `Rectangle.from_dict`: `int(data[...])` for each of the four keys; a
missing key or non-integer value raises (here: `none`). -/
def from_dict (data : List (String × PyVal)) : Option Rectangle := do
  let x ← (assocGet data "x").bind pyAsInt
  let y ← (assocGet data "y").bind pyAsInt
  let width ← (assocGet data "width").bind pyAsInt
  let height ← (assocGet data "height").bind pyAsInt
  pure { x := x, y := y, width := width, height := height }

end Rectangle

structure TextStyle where
  font_path : String := ""
  font_size : Int := 42
  fill : String := "#000000"
  align : String := "left"
  line_spacing : Int := 6
deriving DecidableEq

namespace TextStyle

def to_dict (s : TextStyle) : List (String × PyVal) :=
  [("font_path", .str s.font_path), ("font_size", .int s.font_size),
   ("fill", .str s.fill), ("align", .str s.align), ("line_spacing", .int s.line_spacing)]

/-- Source `TextStyle.from_dict`: `data.get` with the dataclass defaults. -/
def from_dict (data : List (String × PyVal)) : Option TextStyle := do
  let font_path ← match assocGet data "font_path" with
    | none => some ""
    | some v => pyAsStr v
  let font_size ← match assocGet data "font_size" with
    | none => some 42
    | some v => pyAsInt v
  let fill ← match assocGet data "fill" with
    | none => some "#000000"
    | some v => pyAsStr v
  let align ← match assocGet data "align" with
    | none => some "left"
    | some v => pyAsStr v
  let line_spacing ← match assocGet data "line_spacing" with
    | none => some 6
    | some v => pyAsInt v
  pure { font_path := font_path, font_size := font_size, fill := fill,
         align := align, line_spacing := line_spacing }

end TextStyle

structure TextField where
  rect : Rectangle
  style : TextStyle
  prefixText : String := ""
  uppercase : Bool := false
deriving DecidableEq

namespace TextField

def to_dict (f : TextField) : List (String × PyVal) :=
  [("rect", .dict f.rect.to_dict), ("style", .dict f.style.to_dict),
   ("prefix", .str f.prefixText), ("uppercase", .bool f.uppercase)]

/-- Source `TextField.from_dict`: `rect` is required, `style` defaults to `{}`,
`prefix` to `""`, `uppercase` to `bool(...)` of the stored value. -/
def from_dict (data : List (String × PyVal)) : Option TextField := do
  let rectData ← match assocGet data "rect" with
    | some (.dict d) => some d
    | _ => none
  let rect ← Rectangle.from_dict rectData
  let styleData ← match assocGet data "style" with
    | none => some []
    | some (.dict d) => some d
    | _ => none
  let style ← TextStyle.from_dict styleData
  let prefixText ← match assocGet data "prefix" with
    | none => some ""
    | some v => pyAsStr v
  let uppercase := match assocGet data "uppercase" with
    | none => false
    | some v => pyAsBool v
  pure { rect := rect, style := style, prefixText := prefixText, uppercase := uppercase }

end TextField

/-! ## `TemplateLayout`

`_resource_path` calls `Path(value).expanduser().resolve()`, a filesystem
operation; it is modelled by an explicit resolver function `fs`. -/

/-- Source `_resource_path`: resolve a non-empty path through the filesystem,
return empty input untouched. -/
def resource_path (fs : String → String) (value : String) : String :=
  if value ≠ "" then fs value else value

structure TemplateLayout where
  orientation : Orientation
  template_path : String
  photo_area : Rectangle
  clicked_by : TextField
  title : TextField
  description : TextField
  badge : Option TextField := none
  badge_format : String := "\x7b0:02d\x7d"
deriving DecidableEq

namespace TemplateLayout

def to_dict (l : TemplateLayout) : List (String × PyVal) :=
  [("orientation", .str l.orientation.value),
   ("template_path", .str l.template_path),
   ("photo_area", .dict l.photo_area.to_dict),
   ("clicked_by", .dict l.clicked_by.to_dict),
   ("title", .dict l.title.to_dict),
   ("description", .dict l.description.to_dict),
   ("badge", match l.badge with | some b => .dict b.to_dict | none => .pynone),
   ("badge_format", .str l.badge_format)]

/-- Source `TemplateLayout.from_dict`. Note the `_resource_path` applied to
`template_path` and the truthiness test `if badge else None`. -/
def from_dict (fs : String → String) (data : List (String × PyVal)) : Option TemplateLayout := do
  let badgeVal := (assocGet data "badge").getD .pynone
  let orientation ← (← (assocGet data "orientation").bind pyAsStr) |> Orientation.ofValue
  let template_path ← (assocGet data "template_path").bind pyAsStr
  let photo_area ← match assocGet data "photo_area" with
    | some (.dict d) => Rectangle.from_dict d
    | _ => none
  let clicked_by ← match assocGet data "clicked_by" with
    | some (.dict d) => TextField.from_dict d
    | _ => none
  let title ← match assocGet data "title" with
    | some (.dict d) => TextField.from_dict d
    | _ => none
  let description ← match assocGet data "description" with
    | some (.dict d) => TextField.from_dict d
    | _ => none
  let badge ← if pyTruthy badgeVal then
      match badgeVal with
      | .dict d => (TextField.from_dict d).map some
      | _ => none
    else some none
  let badge_format ← match assocGet data "badge_format" with
    | none => some "\x7b0:02d\x7d"
    | some v => pyAsStr v
  pure { orientation := orientation,
         template_path := resource_path fs template_path,
         photo_area := photo_area, clicked_by := clicked_by, title := title,
         description := description, badge := badge, badge_format := badge_format }

end TemplateLayout

/-! ## `ParticipantPhoto` -/

/-- Python `format(n, "03d")`: sign, then zero-padding to total width 3. -/
def format03d (n : Int) : String :=
  let digits := n.natAbs.repr
  let sign := if n < 0 then "-" else ""
  let len := sign.length + digits.length
  if len ≥ 3 then sign ++ digits
  else sign ++ String.mk (List.replicate (3 - len) '0') ++ digits

/-- Regex `re.sub(r"[^a-zA-Z0-9]+", "-", ...)` step 1: map every character
outside `[a-zA-Z0-9]` to a hyphen. -/
def dashNonAlnum (l : List Char) : List Char :=
  l.map fun c => if c.isAlphanum then c else '-'

/-- Step 2: collapse consecutive hyphens to one, so runs of non-alphanumeric
characters become a single hyphen. -/
def squeezeDashes : List Char → List Char
  | [] => []
  | [c] => [c]
  | a :: b :: rest =>
    if a = '-' ∧ b = '-' then squeezeDashes (b :: rest)
    else a :: squeezeDashes (b :: rest)

/-- Python `str.strip("- ")`: drop leading/trailing hyphens and spaces. -/
def stripDashSpace (l : List Char) : List Char :=
  ((l.dropWhile fun c => c = '-' ∨ c = ' ').reverse.dropWhile fun c => c = '-' ∨ c = ' ').reverse

/-- The `_slug` helper inside `ParticipantPhoto.filename_slug`. -/
def pySlug (value : String) : String :=
  let subbed := squeezeDashes (dashNonAlnum (pyStrip value).data)
  let stripped := stripDashSpace subbed
  if stripped = [] then "item"
  else String.mk ((stripped.map Char.toLower).take 60)

structure ParticipantPhoto where
  sequence : Int
  submission_index : Int
  participant_name : String
  theme : String
  description : String
  url : String
  local_path : Option String := none
  orientation : Option Orientation := none
deriving DecidableEq

namespace ParticipantPhoto

/-- Source `ParticipantPhoto.filename_slug`:
`f"{self.sequence:03d}_{_slug(name)}_{_slug(theme)}"`. -/
def filename_slug (p : ParticipantPhoto) : String :=
  format03d p.sequence ++ "_" ++ pySlug p.participant_name ++ "_" ++ pySlug p.theme

end ParticipantPhoto

/-! ## `CSVSubmissionRepository`

The CSV file is modelled after `csv.DictReader`: a list of header names
and, per data row, an association list from header name to cell value. -/

def REQUIRED_KEYS : List (String × String) :=
  [("full name", "participant_name"),
   ("theme name", "theme"),
   ("description about your photograph", "description"),
   ("submit your view (photo upload)", "photo_links")]

/-- Collapse whitespace runs to single spaces (step 2 of `_normalize_key`),
after every whitespace character has been mapped to a plain space. -/
def squeezeSpaces : List Char → List Char
  | [] => []
  | [c] => [c]
  | a :: b :: rest =>
    if a = ' ' ∧ b = ' ' then squeezeSpaces (b :: rest)
    else a :: squeezeSpaces (b :: rest)

/-- Source `_normalize_key`: `re.sub(r"\s+", " ", value.lower()).strip()`. -/
def normalize_key (value : String) : String :=
  let lowered := value.data.map fun c => if c.isWhitespace then ' ' else c.toLower
  pyStrip (String.mk (squeezeSpaces lowered))

/-- Dictionary update used while building `_header_map`: overwrite an
existing key in place, otherwise append. -/
def assocSet (m : List (String × String)) (k v : String) : List (String × String) :=
  match m with
  | [] => [(k, v)]
  | (k2, v2) :: rest => if k2 = k then (k, v) :: rest else (k2, v2) :: assocSet rest k v

/-- String association-list lookup (dict indexing). -/
def strLookup (m : List (String × String)) (k : String) : Option String :=
  match m with
  | [] => none
  | (k2, v) :: rest => if k2 = k then some v else strLookup rest k

/-- The alias→header map built by the loop of `_prepare_header_map`. -/
def buildHeaderMap (headers : List String) : List (String × String) :=
  headers.foldl (fun m raw =>
    match REQUIRED_KEYS.lookup (normalize_key raw) with
    | some aliasName => assocSet m aliasName raw
    | none => m) []

/-- Labels of the required columns that did not resolve to any header
(the `missing` list of `_prepare_header_map`). -/
def missingLabels (headers : List String) : List String :=
  (REQUIRED_KEYS.filter fun kv => (strLookup (buildHeaderMap headers) kv.2).isNone).map Prod.fst

/-- Source `_prepare_header_map`: build alias→header map; fail naming the sorted,
comma-joined missing labels when any required column is absent. -/
def prepare_header_map (headers : List String) :
    Except String (List (String × String)) :=
  let missing := missingLabels headers
  if missing.isEmpty then .ok (buildHeaderMap headers)
  else .error ("Missing expected columns in CSV: " ++
    joinSep ", " (sortStrings missing))

/-- Source `_map_row`: trim every mapped cell; reject the row when the name or the
theme is empty. -/
def map_row (hmap : List (String × String)) (row : List (String × String)) :
    Option (List (String × String)) :=
  let mapped := hmap.map fun kv => (kv.1, pyStrip ((strLookup row kv.2).getD ""))
  if (strLookup mapped "participant_name").getD "" = "" ∨
     (strLookup mapped "theme").getD "" = "" then none
  else some mapped

/-- Source `_split_links`: split the cell on commas, trim, drop empty chunks. -/
def split_links (value : String) : List String :=
  if value = "" then []
  else ((splitOnChar ',' value.data).map fun chunk => pyStrip (String.mk chunk)).filter
    fun chunk => chunk ≠ ""

/-- The link tokens a row contributes (empty for skipped rows). -/
def rowLinks (hmap : List (String × String)) (row : List (String × String)) : List String :=
  match map_row hmap row with
  | none => []
  | some entry => split_links ((strLookup entry "photo_links").getD "")

/-- The inner `for link in links` loop: one `ParticipantPhoto` per link,
the sequence counter incremented after each append. -/
def appendLinks (entry : List (String × String)) (subIdx : Int) :
    Int → List String → List ParticipantPhoto
  | _, [] => []
  | seq, link :: more =>
    { sequence := seq,
      submission_index := subIdx,
      participant_name := (strLookup entry "participant_name").getD "",
      theme := (strLookup entry "theme").getD "",
      description := (strLookup entry "description").getD "",
      url := link } :: appendLinks entry subIdx (seq + 1) more

/-- The row loop of `read_submissions`, carrying the 1-based submission
index and the running sequence counter. -/
def readRows (hmap : List (String × String)) :
    Int → Int → List (List (String × String)) → List ParticipantPhoto
  | _, _, [] => []
  | subIdx, seq, row :: rest =>
    match map_row hmap row with
    | none => readRows hmap (subIdx + 1) seq rest
    | some entry =>
      let links := split_links ((strLookup entry "photo_links").getD "")
      if links.isEmpty then readRows hmap (subIdx + 1) seq rest
      else
        appendLinks entry subIdx seq links ++
        readRows hmap (subIdx + 1) (seq + links.length) rest

/-- Source `read_submissions` on an in-memory table (header row + data rows). -/
def read_submissions (headers : List String) (rows : List (List (String × String))) :
    Except String (List ParticipantPhoto) :=
  match prepare_header_map headers with
  | .error e => .error e
  | .ok hmap => .ok (readRows hmap 1 1 rows)

/-! ## `ImageDownloadService`

HTTP is modelled by an environment function from a request (URL plus query
parameters) to a response carrying the success flag, the cookie jar and the
`Content-Disposition` header. Each service call also returns the list of
outbound requests it performed, in order. -/

structure HttpRequest where
  url : String
  params : List (String × String)
deriving DecidableEq

structure HttpResponse where
  ok : Bool
  cookies : List (String × String)
  contentDisposition : Option String

def DRIVE_HOST : String := "drive.google.com"

/-- Maximal run of characters satisfying `p`. -/
def takeRun (p : Char → Bool) : List Char → List Char
  | [] => []
  | c :: cs => if p c then c :: takeRun p cs else []

/-- Model of `re.search` for patterns of the shape
`<literal prefix><charclass>{min,}<optional closing literal char>`, which
covers every regex used by the download service. Scans left to right; at
each position the literal must match exactly, the (greedy) captured run is
the maximal run of class characters after it, and the optional closing
character must follow the run. Returns the captured run. -/
def searchCapture (pat : List Char) (p : Char → Bool) (minLen : Nat)
    (closing : Option Char) : List Char → Option (List Char)
  | [] => none
  | s@(_ :: rest) =>
    (if pat.isPrefixOf s then
      let tail := s.drop pat.length
      let run := takeRun p tail
      let okClose := match closing with
        | none => true
        | some c => (tail.drop run.length).head? = some c
      if run.length ≥ minLen ∧ okClose = true then some run
      else searchCapture pat p minLen closing rest
    else searchCapture pat p minLen closing rest)

/-- Characters of the drive-id class `[a-zA-Z0-9_-]`. -/
def isDriveIdChar (c : Char) : Bool := c.isAlphanum || c = '_' || c = '-'

/-- Source `_extract_drive_id`: the three patterns `id=(...)`, `/d/(...)`,
`file/d/(...)`, each requiring at least 10 id characters, tried in order. -/
def extract_drive_id (url : String) : Option String :=
  match searchCapture "id=".data isDriveIdChar 10 none url.data with
  | some r => some (String.mk r)
  | none =>
    match searchCapture "/d/".data isDriveIdChar 10 none url.data with
    | some r => some (String.mk r)
    | none =>
      match searchCapture "file/d/".data isDriveIdChar 10 none url.data with
      | some r => some (String.mk r)
      | none => none

/-- Source `_drive_confirm_token`: first cookie whose key starts with
`download_warning`. -/
def drive_confirm_token (r : HttpResponse) : Option String :=
  r.cookies.foldr (fun kv acc =>
    if "download_warning".data.isPrefixOf kv.1.data then some kv.2 else acc) none

/-- The literal pattern `filename*=UTF-8''` (apostrophes spelled out). -/
def utf8FilenamePat : List Char :=
  "filename*=UTF-8".data ++ [apos, apos]

/-- Source `_resolve_filename`: the `Content-Disposition` UTF-8 filename first, quoted
filename second, else the sanitized base with a `.jpg` extension. -/
def resolve_filename (base : String) (contentDisposition : Option String) : String :=
  let fallback :=
    let stem := String.mk (base.data.filter fun c => c.isAlphanum || c = '_' || c = '-')
    (if stem = "" then "download" else stem) ++ ".jpg"
  match contentDisposition with
  | none => fallback
  | some cd =>
    match searchCapture utf8FilenamePat (fun c => c ≠ ';') 1 none cd.data with
    | some r => String.mk r
    | none =>
      match searchCapture "filename=\"".data (fun c => c ≠ quoteChar) 1 (some quoteChar) cd.data with
      | some r => String.mk r
      | none => fallback

/-- Source `_download_generic`: a single GET; fail on a non-success status, else
save under the resolved filename. -/
def download_generic (http : HttpRequest → HttpResponse) (url : String) :
    Except String (String × List HttpRequest) :=
  let req : HttpRequest := { url := url, params := [] }
  let response := http req
  if !response.ok then .error ("Unable to download image: " ++ url)
  else .ok (resolve_filename url response.contentDisposition, [req])

/-- Source `_download_from_drive`: extract the id, GET the export endpoint, replay
with the `confirm` token when the warning cookie is present, and check only
the final response's success flag. -/
def driveExportUrl : String := "https://drive.google.com/uc?export=download"

/-- The first export GET: `session.get(download_url, params={"id": id})`. -/
def driveReq1 (fileId : String) : HttpRequest :=
  { url := driveExportUrl, params := [("id", fileId)] }

/-- The confirm replay: the same GET with `params["confirm"] = token` added. -/
def driveReq2 (fileId token : String) : HttpRequest :=
  { url := driveExportUrl, params := [("id", fileId), ("confirm", token)] }

def download_from_drive (http : HttpRequest → HttpResponse) (url : String) :
    Except String (String × List HttpRequest) :=
  match extract_drive_id url with
  | none => .error ("Unable to parse Google Drive id: " ++ url)
  | some fileId =>
    let req1 := driveReq1 fileId
    let response1 := http req1
    match drive_confirm_token response1 with
    | some token =>
      let req2 := driveReq2 fileId token
      let response2 := http req2
      if !response2.ok then .error ("Drive download failed for id " ++ fileId)
      else .ok (resolve_filename fileId response2.contentDisposition, [req1, req2])
    | none =>
      if !response1.ok then .error ("Drive download failed for id " ++ fileId)
      else .ok (resolve_filename fileId response1.contentDisposition, [req1])

/-- Source `ImageDownloadService.download`: empty-URL guard, then route on the
substring test `DRIVE_HOST in url`. -/
def download (http : HttpRequest → HttpResponse) (url : String) :
    Except String (String × List HttpRequest) :=
  if url = "" then .error "Empty URL provided"
  else if containsSub url DRIVE_HOST then download_from_drive http url
  else download_generic http url

/-! ## `TemplateRenderer`: text wrapping and drawing

Pillow's `draw.textsize` is modelled as an environment function returning
the (width, height) a string renders at. -/

/-- Python `" ".join(words)`. -/
def joinSpace (words : List String) : String := joinSep " " words

/-- The word loop of `_wrap_text`: `lines` and `current` accumulators. -/
def wrapGo (measure : String → Nat) (maxWidth : Int) :
    List String → List String → List String → List String
  | [], lines, current => if !current.isEmpty then lines ++ [joinSpace current] else lines
  | word :: ws, lines, current =>
    let candidate := if !current.isEmpty then joinSpace (current ++ [word]) else word
    if (measure candidate : Int) ≤ maxWidth ∨ current.isEmpty then
      wrapGo measure maxWidth ws lines (current ++ [word])
    else wrapGo measure maxWidth ws (lines ++ [joinSpace current]) [word]

/-- Source `TemplateRenderer._wrap_text`. -/
def wrap_text (measure : String → Nat) (text : String) (maxWidth : Int) : List String :=
  if text = "" then []
  else
    let words := pySplit text
    if words.isEmpty then []
    else wrapGo measure maxWidth words [] []

/-- One line as emitted by `draw.text`: the string and its position. -/
structure DrawnLine where
  text : String
  x : Int
  y : Int
deriving DecidableEq

/-- The horizontal position of a line per the field's alignment
(`//` is Python floor division, hence `Int.fdiv`). -/
def alignX (field : TextField) (lineWidth : Nat) : Int :=
  if field.style.align = "center" then
    field.rect.x + max ((field.rect.width - (lineWidth : Int)).fdiv 2) 0
  else if field.style.align = "right" then
    field.rect.x + max (field.rect.width - (lineWidth : Int)) 0
  else field.rect.x

/-- The line loop of `_draw_text`: draw at the cursor, advance by height
plus line spacing, break once the cursor passes the rectangle bottom. -/
def drawLinesGo (measure : String → Nat × Nat) (field : TextField) :
    List String → Int → List DrawnLine
  | [], _ => []
  | line :: rest, y =>
    let wh := measure line
    let drawn : DrawnLine := { text := line, x := alignX field wh.1, y := y }
    let y2 := y + (wh.2 : Int) + field.style.line_spacing
    drawn :: (if y2 > field.rect.y + field.rect.height then []
              else drawLinesGo measure field rest y2)

/-- The content string `_draw_text` renders: prefix plus text, trimmed,
optionally uppercased. -/
def drawContent (field : TextField) (text : String) : String :=
  let content := pyStrip (field.prefixText ++ text)
  if field.uppercase then pyUpper content else content

/-- Source `TemplateRenderer._draw_text`: prefix, trim, optional uppercase, wrap
against the rectangle width, then the drawing loop from the rectangle's
top-left. -/
def draw_text (measure : String → Nat × Nat) (field : TextField) (text : String) :
    List DrawnLine :=
  let lines := wrap_text (fun s => (measure s).1) (drawContent field text) field.rect.width
  drawLinesGo measure field lines field.rect.y

/-! ## `PostGenerationService.generate`

The per-photo collaborators are abstracted as an environment: only
`PhotoDownloadError` from the downloader and `ValueError` from the layout
lookup are caught by the source's loop; orientation detection and rendering
raise uncaught exceptions. -/

structure GenEnv where
  /-- Effect of `downloader.download`: local path, or a `PhotoDownloadError` message. -/
  download : String → Except String String
  /-- Effect of `orientation_detector.detect`: orientation, or an uncaught
  decode/IO error message from `Image.open`. -/
  detect : String → Except String Orientation
  /-- Effect of `template_manager.get_layout`: layout, or a `ValueError` message. -/
  get_layout : Orientation → Except String TemplateLayout
  /-- Effect of `renderer.render` followed by `composed.save`: unit, or an uncaught
  error message. -/
  render : TemplateLayout → ParticipantPhoto → Except String Unit

/-- The photo loop of `generate`, carrying the 1-based `enumerate` index.
Returns the progress messages emitted so far and either the collected
output paths or the message of an exception that escaped the loop. -/
def generateGo (env : GenEnv) (output_dir : String) :
    Nat → List ParticipantPhoto → List String × Except String (List String)
  | _, [] => ([], .ok [])
  | index, photo :: rest =>
    let msgs0 := ["Downloading (" ++ toString index ++ "): " ++ photo.url]
    match env.download photo.url with
    | .error err =>
      let tail := generateGo env output_dir (index + 1) rest
      (msgs0 ++ ["Download failed: " ++ err] ++ tail.1, tail.2)
    | .ok localPath =>
      match env.detect localPath with
      | .error e => (msgs0, .error e)
      | .ok orient =>
        let photo2 := { photo with local_path := some localPath, orientation := some orient }
        match env.get_layout orient with
        | .error err =>
          let tail := generateGo env output_dir (index + 1) rest
          (msgs0 ++ [err] ++ tail.1, tail.2)
        | .ok layout =>
          let msgs1 := msgs0 ++
            ["Rendering (" ++ toString index ++ ") using " ++ orient.value ++ " template"]
          match env.render layout photo2 with
          | .error e => (msgs1, .error e)
          | .ok _ =>
            let filename := photo2.filename_slug ++ ".png"
            let outputPath := output_dir ++ "/" ++ filename
            let tail := generateGo env output_dir (index + 1) rest
            (msgs1 ++ ["Saved " ++ filename] ++ tail.1,
             match tail.2 with
             | .ok paths => .ok (outputPath :: paths)
             | .error e => .error e)

/-- Source `PostGenerationService.generate` with a progress sink attached. -/
def generate (env : GenEnv) (output_dir : String) (photos : List ParticipantPhoto) :
    List String × Except String (List String) :=
  generateGo env output_dir 1 photos

/-- The list `[start, start+1, ..., start+n-1]` over the integers, describing the
sequence numbers a batch of `n` links receives. -/
def intRange (start : Int) : Nat → List Int
  | 0 => []
  | n + 1 => start :: intRange (start + 1) n

/-! ## Verification of the claims -/

lemma pySlug_length_le (s : String) : (pySlug s).length ≤ 60 := by
  unfold pySlug
  dsimp only
  split
  · decide
  · simp [String.length]

/-- C9: `filename_slug` is the sequence number zero-padded to three digits
and the slugs of participant name and theme joined by underscores; each
slug is capped at 60 characters and an empty slug component becomes the
placeholder `"item"`; name `Jane O'Brien!!`, theme `Sunset / Hills` and
sequence 7 yield `007_jane-o-brien_sunset-hills`. -/
theorem c9_filename_slug (p : ParticipantPhoto) :
    p.filename_slug =
      format03d p.sequence ++ "_" ++ pySlug p.participant_name ++ "_" ++ pySlug p.theme ∧
    (pySlug p.participant_name).length ≤ 60 ∧
    (pySlug p.theme).length ≤ 60 ∧
    pySlug "" = "item" ∧
    pySlug "!! - !!" = "item" ∧
    ({ sequence := 7, submission_index := 1,
       participant_name := "Jane O" ++ String.mk [apos] ++ "Brien!!",
       theme := "Sunset / Hills", description := "", url := "" } :
      ParticipantPhoto).filename_slug = "007_jane-o-brien_sunset-hills" := by
  exact ⟨rfl, pySlug_length_le _, pySlug_length_le _, by decide, by decide, by decide⟩

/-- C10: `download` takes the Google-Drive path exactly when the substring
`drive.google.com` occurs anywhere in the (non-empty) URL — including in a
path or query of a non-drive host — and the generic path otherwise. -/
theorem c10_download_routing (http : HttpRequest → HttpResponse) (url : String)
    (h : url ≠ "") :
    (containsSub url DRIVE_HOST = true →
      download http url = download_from_drive http url) ∧
    (containsSub url DRIVE_HOST = false →
      download http url = download_generic http url) ∧
    containsSub "https://example.com/page?next=drive.google.com/x" DRIVE_HOST = true := by
  refine ⟨?_, ?_, by decide⟩ <;> intro hc <;> simp [download, h, hc]

/-- Witness for C10 at a URL whose only `drive.google.com` occurrence is in
the query string. -/
theorem c10_witness :
    (containsSub "https://example.com/page?next=drive.google.com/x" DRIVE_HOST = true →
      download (fun _ => { ok := true, cookies := [], contentDisposition := none })
          "https://example.com/page?next=drive.google.com/x" =
        download_from_drive (fun _ => { ok := true, cookies := [], contentDisposition := none })
          "https://example.com/page?next=drive.google.com/x") ∧
    (containsSub "https://example.com/page?next=drive.google.com/x" DRIVE_HOST = false →
      download (fun _ => { ok := true, cookies := [], contentDisposition := none })
          "https://example.com/page?next=drive.google.com/x" =
        download_generic (fun _ => { ok := true, cookies := [], contentDisposition := none })
          "https://example.com/page?next=drive.google.com/x") ∧
    containsSub "https://example.com/page?next=drive.google.com/x" DRIVE_HOST = true :=
  c10_download_routing _ _ (by decide)

lemma templateLayout_from_to_dict (fs : String → String) (layout : TemplateLayout) :
    TemplateLayout.from_dict fs layout.to_dict =
      some { layout with template_path := resource_path fs layout.template_path } := by
  obtain ⟨o, tp, pa, cb, ti, de, badge, bf⟩ := layout
  cases o <;> cases badge <;> rfl

/-- C4 (amended): `from_dict ∘ to_dict` reproduces every field except that
`template_path` is passed through `_resource_path`; the original layout is
reproduced exactly — badge absent or not — precisely when path resolution
leaves its `template_path` unchanged. -/
theorem c4_roundtrip_resolves_template_path (fs : String → String) (layout : TemplateLayout) :
    TemplateLayout.from_dict fs layout.to_dict =
      some { layout with template_path := resource_path fs layout.template_path } ∧
    (TemplateLayout.from_dict fs layout.to_dict = some layout ↔
      resource_path fs layout.template_path = layout.template_path) := by
  refine ⟨templateLayout_from_to_dict fs layout, ?_⟩
  rw [templateLayout_from_to_dict fs layout]
  obtain ⟨o, tp, pa, cb, ti, de, badge, bf⟩ := layout
  simp [TemplateLayout.mk.injEq]

/-- A model of `Path(value).expanduser().resolve()` on a machine whose
working directory is `/app`: a relative path gains the directory prefix. -/
def c4Resolver : String → String := fun s => "/app/" ++ s

/-- A layout whose `template_path` is relative, as `TemplateLayout.empty`
and hand-written configs produce. -/
def c4Layout : TemplateLayout :=
  { orientation := .landscape,
    template_path := "photo.png",
    photo_area := { x := 0, y := 0, width := 100, height := 100 },
    clicked_by := { rect := { x := 0, y := 0, width := 100, height := 40 }, style := {} },
    title := { rect := { x := 0, y := 50, width := 100, height := 40 }, style := {} },
    description := { rect := { x := 0, y := 100, width := 100, height := 200 }, style := {} } }

/-- C4 counterexample: with a relative `template_path`, `from_dict ∘ to_dict`
does not reproduce the layout — `_resource_path` rewrites the path. -/
theorem c4_counterexample :
    TemplateLayout.from_dict c4Resolver c4Layout.to_dict ≠ some c4Layout := by decide

/-- The orchestrator's collaborators on a batch whose downloaded file
cannot be opened as an image: the download succeeds and `Image.open`
inside `OrientationDetector.detect` raises. -/
def c1Env : GenEnv :=
  { download := fun _ => .ok "cache/a.jpg",
    detect := fun _ => .error "cannot identify image file cache/a.jpg",
    get_layout := fun _ => .error "No template configured for landscape",
    render := fun _ _ => .ok () }

def c1Photo : ParticipantPhoto :=
  { sequence := 1, submission_index := 1, participant_name := "Ann", theme := "Sky",
    description := "", url := "http://example.com/a.jpg" }

def c1Photo2 : ParticipantPhoto :=
  { c1Photo with sequence := 2, url := "http://example.com/b.jpg" }

/-- C1: a decode error raised while opening the downloaded file for
orientation detection is NOT caught by `generate`: the call ends with the
error escaping, no failure progress message is reported for the photo, and
the rest of the batch (the second photo) is never processed — contradicting
the claim that such errors are converted to a progress message and skipped. -/
theorem c1_decode_error_escapes_generate :
    generate c1Env "out" [c1Photo, c1Photo2] =
      (["Downloading (1): http://example.com/a.jpg"],
       .error "cannot identify image file cache/a.jpg") ∧
    ∀ paths : List String,
      (generate c1Env "out" [c1Photo, c1Photo2]).2 ≠ Except.ok paths := by
  refine ⟨rfl, ?_⟩
  intro paths
  simp [generate, generateGo, c1Env]

/-- C5: on a drive URL with an extractable file id, when the first response
carries a `download_warning`-prefixed cookie the service performs exactly
two requests — the second replaying the first with the cookie's value as
the `confirm` parameter — and the outcome is decided by the second
response's success flag alone (the first response's flag does not appear);
when no id pattern matches, it fails with a download error. -/
theorem c5_drive_confirm_token_flow (http : HttpRequest → HttpResponse)
    (url fileId token : String)
    (hid : extract_drive_id url = some fileId)
    (htok : drive_confirm_token (http (driveReq1 fileId)) = some token) :
    download_from_drive http url =
      (if (http (driveReq2 fileId token)).ok then
        .ok (resolve_filename fileId (http (driveReq2 fileId token)).contentDisposition,
             [driveReq1 fileId, driveReq2 fileId token])
      else .error ("Drive download failed for id " ++ fileId)) ∧
    ∀ u, extract_drive_id u = none →
      download_from_drive http u = .error ("Unable to parse Google Drive id: " ++ u) := by
  constructor
  · unfold download_from_drive
    rw [hid]
    simp only [htok]
    cases hok : (http (driveReq2 fileId token)).ok <;> simp [hok]
  · intro u hu
    unfold download_from_drive
    rw [hu]

/-- An HTTP stub for the C5 witness: the first export GET answers with the
anti-virus warning cookie and a FAILED success flag; the confirm replay
succeeds. -/
def c5Http : HttpRequest → HttpResponse := fun r =>
  if (r.params.lookup "confirm").isSome then
    { ok := true, cookies := [], contentDisposition := none }
  else
    { ok := false, cookies := [("download_warning_abc", "tok42")], contentDisposition := none }

/-- Witness for C5: both hypotheses hold by evaluation and the download
succeeds after exactly the two requests, although the first response's
success flag was false. -/
theorem c5_witness :
    download_from_drive c5Http "https://drive.google.com/open?id=abcDEF12345" =
      .ok ("abcDEF12345.jpg",
        [driveReq1 "abcDEF12345", driveReq2 "abcDEF12345" "tok42"]) :=
  ((c5_drive_confirm_token_flow c5Http "https://drive.google.com/open?id=abcDEF12345"
    "abcDEF12345" "tok42" rfl rfl).1).trans rfl

/-- C3: when the first of two photos fails to download (as an empty URL
does: the downloader raises before any request) and the second processes
cleanly, `generate` reports the failure for the first, continues, and
returns exactly the one output path of the second photo. -/
theorem c3_download_failure_is_skipped (env : GenEnv) (outDir : String)
    (p1 p2 : ParticipantPhoto) (e loc : String) (o : Orientation)
    (layout : TemplateLayout)
    (h1 : env.download p1.url = .error e)
    (h2 : env.download p2.url = .ok loc)
    (h3 : env.detect loc = .ok o)
    (h4 : env.get_layout o = .ok layout)
    (h5 : env.render layout
        { p2 with local_path := some loc, orientation := some o } = .ok ()) :
    generate env outDir [p1, p2] =
      (["Downloading (1): " ++ p1.url,
        "Download failed: " ++ e,
        "Downloading (2): " ++ p2.url,
        "Rendering (2) using " ++ o.value ++ " template",
        "Saved " ++ (p2.filename_slug ++ ".png")],
       .ok [outDir ++ "/" ++ (p2.filename_slug ++ ".png")]) ∧
    ∀ http, download http "" = .error "Empty URL provided" := by
  refine ⟨?_, fun http => rfl⟩
  obtain ⟨seq, si, pn, th, de, u, lp, orn⟩ := p2
  simp only [generate, generateGo, h1, h2, h3, h4, h5, ParticipantPhoto.filename_slug]
  rfl

/-- A minimal configured layout for the C3 witness. -/
def c3Layout : TemplateLayout :=
  { orientation := .landscape,
    template_path := "/app/t.png",
    photo_area := { x := 0, y := 0, width := 10, height := 10 },
    clicked_by := { rect := { x := 0, y := 0, width := 10, height := 4 }, style := {} },
    title := { rect := { x := 0, y := 5, width := 10, height := 4 }, style := {} },
    description := { rect := { x := 0, y := 10, width := 10, height := 20 }, style := {} } }

def c3P1 : ParticipantPhoto :=
  { sequence := 1, submission_index := 1, participant_name := "Al", theme := "Ice",
    description := "", url := "" }

def c3P2 : ParticipantPhoto :=
  { sequence := 2, submission_index := 2, participant_name := "Bo", theme := "Sea",
    description := "", url := "http://x/y.jpg" }

/-- Collaborators for the C3 witness batch: empty URLs fail as the real
downloader does, everything else succeeds. -/
def c3Env : GenEnv :=
  { download := fun u => if u = "" then .error "Empty URL provided" else .ok ("cache/" ++ u),
    detect := fun _ => .ok .landscape,
    get_layout := fun _ => .ok c3Layout,
    render := fun _ _ => .ok () }

theorem c3_witness :
    generate c3Env "out" [c3P1, c3P2] =
      (["Downloading (1): ",
        "Download failed: Empty URL provided",
        "Downloading (2): http://x/y.jpg",
        "Rendering (2) using landscape template",
        "Saved 002_bo_sea.png"],
       .ok ["out/002_bo_sea.png"]) :=
  ((c3_download_failure_is_skipped c3Env "out" c3P1 c3P2 "Empty URL provided"
      ("cache/" ++ "http://x/y.jpg") .landscape c3Layout rfl rfl rfl rfl rfl).1).trans rfl

/-! ### C8: missing required columns abort before any row is read -/

lemma isPrefixOf_append (l t : List Char) : l.isPrefixOf (l ++ t) = true := by
  induction l with
  | nil => cases t <;> rfl
  | cons c cs ih => simp [List.isPrefixOf, ih]

lemma containsSub_go_head (sub : String) (l : List Char)
    (h : sub.data.isPrefixOf l = true) : containsSub.go sub l = true := by
  cases l with
  | nil => simpa [containsSub.go] using h
  | cons c rest => simp [containsSub.go, h]

lemma containsSub_go_suffix (sub : String) :
    ∀ (pre l : List Char), containsSub.go sub l = true → containsSub.go sub (pre ++ l) = true := by
  intro pre
  induction pre with
  | nil => intro l h; simpa using h
  | cons c pre2 ih => intro l h; simp [containsSub.go, ih l h]

lemma containsSub_go_eq_true (sub : String) (pre post : List Char) :
    containsSub.go sub (pre ++ sub.data ++ post) = true := by
  rw [List.append_assoc]
  exact containsSub_go_suffix sub pre _
    (containsSub_go_head sub _ (isPrefixOf_append sub.data post))

/-- Substring containment follows from list infix. -/
lemma containsSub_of_substr (s sub : String) (h : sub.data <:+: s.data) :
    containsSub s sub = true := by
  obtain ⟨pre, post, hps⟩ := h
  unfold containsSub
  rw [← hps]
  exact containsSub_go_eq_true sub pre post

lemma data_append (a b : String) : (a ++ b).data = a.data ++ b.data := rfl

lemma substr_append_right (w : String) {x z : String}
    (h : x.data <:+: z.data) : x.data <:+: (w ++ z).data := by
  obtain ⟨pre, post, hps⟩ := h
  exact ⟨w.data ++ pre, post, by rw [data_append, ← hps]; simp⟩

lemma mem_joinSep_substr (sep : String) :
    ∀ (l : List String) (x : String), x ∈ l → x.data <:+: (joinSep sep l).data := by
  intro l
  induction l with
  | nil => intro x hx; cases hx
  | cons a t ih =>
    intro x hx
    cases t with
    | nil =>
      rw [List.mem_singleton] at hx
      subst hx
      exact List.infix_refl _
    | cons b t2 =>
      rcases List.mem_cons.mp hx with hxa | hxt
      · subst hxa
        show x.data <:+: (x ++ sep ++ joinSep sep (b :: t2)).data
        exact ⟨[], sep.data ++ (joinSep sep (b :: t2)).data, by simp [data_append]⟩
      · show x.data <:+: (a ++ sep ++ joinSep sep (b :: t2)).data
        exact substr_append_right (a ++ sep) (ih x hxt)

lemma mem_insertSorted_of_mem (s : String) :
    ∀ (l : List String) (x : String), x ∈ l → x ∈ insertSorted s l := by
  intro l
  induction l with
  | nil => intro x hx; cases hx
  | cons t ts ih =>
    intro x hx
    unfold insertSorted
    split
    · rcases List.mem_cons.mp hx with hxa | hxt
      · exact List.mem_cons.mpr (Or.inl hxa)
      · exact List.mem_cons.mpr (Or.inr (ih x hxt))
    · exact List.mem_cons.mpr (Or.inr hx)

lemma self_mem_insertSorted (s : String) : ∀ (l : List String), s ∈ insertSorted s l := by
  intro l
  induction l with
  | nil => exact List.mem_singleton.mpr rfl
  | cons t ts ih =>
    unfold insertSorted
    split
    · exact List.mem_cons.mpr (Or.inr ih)
    · exact List.mem_cons.mpr (Or.inl rfl)

lemma mem_sortStrings (l : List String) (x : String) (h : x ∈ l) : x ∈ sortStrings l := by
  induction l with
  | nil => cases h
  | cons a t ih =>
    show x ∈ insertSorted a (sortStrings t)
    rcases List.mem_cons.mp h with hxa | hxt
    · subst hxa; exact self_mem_insertSorted x _
    · exact mem_insertSorted_of_mem a _ x (ih hxt)

/-- C8: when any of the four required semantic columns is missing from the
header row, `read_submissions` fails with the validation error whose
message names (sorted, comma-joined) the missing column labels, the data
rows are never consulted — the same failure results for any rows — and the
message contains every missing label as a substring. -/
theorem c8_missing_columns_fail_fast (headers : List String)
    (rows : List (List (String × String)))
    (h : missingLabels headers ≠ []) :
    read_submissions headers rows =
      .error ("Missing expected columns in CSV: " ++
        joinSep ", " (sortStrings (missingLabels headers))) ∧
    (∀ rows2, read_submissions headers rows2 = read_submissions headers rows) ∧
    ∀ lbl ∈ missingLabels headers,
      containsSub ("Missing expected columns in CSV: " ++
        joinSep ", " (sortStrings (missingLabels headers))) lbl = true := by
  have hisE : (missingLabels headers).isEmpty = false := by
    cases hm : missingLabels headers with
    | nil => exact absurd hm h
    | cons a t => rfl
  have hprep : prepare_header_map headers =
      .error ("Missing expected columns in CSV: " ++
        joinSep ", " (sortStrings (missingLabels headers))) := by
    simp [prepare_header_map, hisE]
  refine ⟨by simp [read_submissions, hprep], fun rows2 => by simp [read_submissions, hprep], ?_⟩
  intro lbl hm
  exact containsSub_of_substr _ _
    (substr_append_right "Missing expected columns in CSV: "
      (mem_joinSep_substr ", " _ lbl (mem_sortStrings _ lbl hm)))

/-- Witness for C8: a header row lacking the theme column fails before any
row with a message naming it. -/
theorem c8_witness :
    read_submissions ["Full Name", "Description about your photograph",
        "Submit your view (photo upload)"] [[("Full Name", "A")]] =
      .error "Missing expected columns in CSV: theme name" :=
  ((c8_missing_columns_fail_fast ["Full Name", "Description about your photograph",
      "Submit your view (photo upload)"] [[("Full Name", "A")]] (by decide)).1).trans rfl

/-! ### C2: sequencing of `read_submissions` -/

lemma intRange_append (s : Int) (a b : Nat) :
    intRange s (a + b) = intRange s a ++ intRange (s + a) b := by
  induction a generalizing s with
  | zero => simp [intRange]
  | succ a ih =>
    rw [Nat.succ_add]
    show s :: intRange (s + 1) (a + b) = (s :: intRange (s + 1) a) ++ intRange (s + (a + 1)) b
    rw [ih (s + 1)]
    simp only [List.cons_append, List.append_assoc]
    congr 3
    ring

lemma appendLinks_spec (entry : List (String × String)) (subIdx : Int) :
    ∀ (links : List String) (seq : Int),
      (appendLinks entry subIdx seq links).map ParticipantPhoto.url = links ∧
      (appendLinks entry subIdx seq links).map ParticipantPhoto.sequence =
        intRange seq links.length := by
  intro links
  induction links with
  | nil => intro seq; exact ⟨rfl, rfl⟩
  | cons link more ih =>
    intro seq
    obtain ⟨h1, h2⟩ := ih (seq + 1)
    exact ⟨by simp [appendLinks, h1], by simp [appendLinks, h2, intRange]⟩

lemma readRows_spec (hmap : List (String × String)) :
    ∀ (rows : List (List (String × String))) (subIdx seq : Int),
      (readRows hmap subIdx seq rows).map ParticipantPhoto.url =
        (rows.map (rowLinks hmap)).flatten ∧
      (readRows hmap subIdx seq rows).map ParticipantPhoto.sequence =
        intRange seq (rows.map (rowLinks hmap)).flatten.length := by
  intro rows
  induction rows with
  | nil => intro subIdx seq; exact ⟨rfl, rfl⟩
  | cons row rest ih =>
    intro subIdx seq
    cases hm : map_row hmap row with
    | none =>
      obtain ⟨h1, h2⟩ := ih (subIdx + 1) seq
      refine ⟨?_, ?_⟩ <;> simp [readRows, rowLinks, hm, h1, h2]
    | some entry =>
      cases hl : (split_links ((strLookup entry "photo_links").getD "")).isEmpty with
      | true =>
        obtain ⟨h1, h2⟩ := ih (subIdx + 1) seq
        rw [List.isEmpty_iff] at hl
        refine ⟨?_, ?_⟩ <;> simp [readRows, rowLinks, hm, hl, h1, h2]
      | false =>
        obtain ⟨h1, h2⟩ := ih (subIdx + 1)
          (seq + (split_links ((strLookup entry "photo_links").getD "")).length)
        obtain ⟨a1, a2⟩ := appendLinks_spec entry subIdx
          (split_links ((strLookup entry "photo_links").getD "")) seq
        refine ⟨?_, ?_⟩ <;>
          simp [readRows, rowLinks, hm, hl, h1, h2, a1, a2, intRange_append]

/-- C2: on any table whose header row validates (producing header map
`hmap`), `read_submissions` succeeds and returns one entry per non-empty
link token of every accepted row — in row order then intra-row link
order — with `sequence` running exactly over `1..L` for `L` total links;
rows rejected by `_map_row` (empty trimmed name or theme) or whose links
cell yields no tokens contribute no entries and consume no sequence
number, since their `rowLinks` is empty. -/
theorem c2_read_submissions_sequencing (headers : List String)
    (rows : List (List (String × String))) (hmap : List (String × String))
    (h : prepare_header_map headers = .ok hmap) :
    ∃ photos, read_submissions headers rows = .ok photos ∧
      photos.map ParticipantPhoto.url = (rows.map (rowLinks hmap)).flatten ∧
      photos.map ParticipantPhoto.sequence =
        intRange 1 (rows.map (rowLinks hmap)).flatten.length ∧
      ∀ row ∈ rows, map_row hmap row = none → rowLinks hmap row = [] := by
  obtain ⟨h1, h2⟩ := readRows_spec hmap rows 1 1
  refine ⟨readRows hmap 1 1 rows, ?_, h1, h2, ?_⟩
  · simp [read_submissions, h]
  · intro row _ hmr
    simp [rowLinks, hmr]

/-- Witness for C2 on a four-row table: a two-link row, a row with an empty
name, a row with a blank links cell, and a one-link row; the sequences come
out `1, 2, 3`. -/
theorem c2_witness :
    ∃ photos,
      read_submissions
        ["Full Name", "Theme Name", "Description about your photograph",
         "Submit your view (photo upload)"]
        [[("Full Name", "Ann"), ("Theme Name", "Sky"),
          ("Description about your photograph", "d1"),
          ("Submit your view (photo upload)", "u1, u2")],
         [("Full Name", " "), ("Theme Name", "Sea"),
          ("Description about your photograph", "d2"),
          ("Submit your view (photo upload)", "u3")],
         [("Full Name", "Cid"), ("Theme Name", "Ice"),
          ("Description about your photograph", "d3"),
          ("Submit your view (photo upload)", " , ")],
         [("Full Name", "Dee"), ("Theme Name", "Fog"),
          ("Description about your photograph", "d4"),
          ("Submit your view (photo upload)", "u4")]] = .ok photos ∧
      photos.map ParticipantPhoto.url =
        ([[("Full Name", "Ann"), ("Theme Name", "Sky"),
           ("Description about your photograph", "d1"),
           ("Submit your view (photo upload)", "u1, u2")],
          [("Full Name", " "), ("Theme Name", "Sea"),
           ("Description about your photograph", "d2"),
           ("Submit your view (photo upload)", "u3")],
          [("Full Name", "Cid"), ("Theme Name", "Ice"),
           ("Description about your photograph", "d3"),
           ("Submit your view (photo upload)", " , ")],
          [("Full Name", "Dee"), ("Theme Name", "Fog"),
           ("Description about your photograph", "d4"),
           ("Submit your view (photo upload)", "u4")]].map
          (rowLinks [("participant_name", "Full Name"), ("theme", "Theme Name"),
            ("description", "Description about your photograph"),
            ("photo_links", "Submit your view (photo upload)")])).flatten ∧
      photos.map ParticipantPhoto.sequence =
        intRange 1
          ([[("Full Name", "Ann"), ("Theme Name", "Sky"),
             ("Description about your photograph", "d1"),
             ("Submit your view (photo upload)", "u1, u2")],
            [("Full Name", " "), ("Theme Name", "Sea"),
             ("Description about your photograph", "d2"),
             ("Submit your view (photo upload)", "u3")],
            [("Full Name", "Cid"), ("Theme Name", "Ice"),
             ("Description about your photograph", "d3"),
             ("Submit your view (photo upload)", " , ")],
            [("Full Name", "Dee"), ("Theme Name", "Fog"),
             ("Description about your photograph", "d4"),
             ("Submit your view (photo upload)", "u4")]].map
            (rowLinks [("participant_name", "Full Name"), ("theme", "Theme Name"),
              ("description", "Description about your photograph"),
              ("photo_links", "Submit your view (photo upload)")])).flatten.length ∧
      ∀ row ∈ [[("Full Name", "Ann"), ("Theme Name", "Sky"),
            ("Description about your photograph", "d1"),
            ("Submit your view (photo upload)", "u1, u2")],
           [("Full Name", " "), ("Theme Name", "Sea"),
            ("Description about your photograph", "d2"),
            ("Submit your view (photo upload)", "u3")],
           [("Full Name", "Cid"), ("Theme Name", "Ice"),
            ("Description about your photograph", "d3"),
            ("Submit your view (photo upload)", " , ")],
           [("Full Name", "Dee"), ("Theme Name", "Fog"),
            ("Description about your photograph", "d4"),
            ("Submit your view (photo upload)", "u4")]],
        map_row [("participant_name", "Full Name"), ("theme", "Theme Name"),
          ("description", "Description about your photograph"),
          ("photo_links", "Submit your view (photo upload)")] row = none →
        rowLinks [("participant_name", "Full Name"), ("theme", "Theme Name"),
          ("description", "Description about your photograph"),
          ("photo_links", "Submit your view (photo upload)")] row = [] :=
  c2_read_submissions_sequencing _ _ _ rfl

/-! ### C6: greedy word wrap -/

lemma joinSpace_single (w : String) : joinSpace [w] = w := rfl

lemma wrapGo_spec (measure : String → Nat) (maxWidth : Int) :
    ∀ (ws current lines : List String),
      (current = [] ∨ (measure (joinSpace current) : Int) ≤ maxWidth ∨ current.length = 1) →
      ∃ groups : List (List String),
        wrapGo measure maxWidth ws lines current = lines ++ groups.map joinSpace ∧
        groups.flatten = current ++ ws ∧
        ∀ g ∈ groups, g ≠ [] ∧
          ((measure (joinSpace g) : Int) ≤ maxWidth ∨ g.length = 1) := by
  intro ws
  induction ws with
  | nil =>
    intro current lines hcur
    by_cases hc : current = []
    · refine ⟨[], ?_, by simp [hc], by simp⟩
      simp [wrapGo, hc]
    · refine ⟨[current], ?_, by simp, ?_⟩
      · have : current.isEmpty = false := by
          cases current with
          | nil => exact absurd rfl hc
          | cons a t => rfl
        simp [wrapGo, this]
      · intro g hg
        rw [List.mem_singleton] at hg
        subst hg
        exact ⟨hc, hcur.resolve_left hc⟩
  | cons w ws ih =>
    intro current lines hcur
    have hcand : (if !current.isEmpty then joinSpace (current ++ [w]) else w) =
        joinSpace (current ++ [w]) := by
      cases current with
      | nil => rfl
      | cons a t => rfl
    by_cases hcond : (measure (joinSpace (current ++ [w])) : Int) ≤ maxWidth ∨
        current.isEmpty = true
    · have hinv : current ++ [w] = [] ∨
          (measure (joinSpace (current ++ [w])) : Int) ≤ maxWidth ∨
          (current ++ [w]).length = 1 := by
        rcases hcond with hm | he
        · exact Or.inr (Or.inl hm)
        · rw [List.isEmpty_iff] at he
          subst he
          exact Or.inr (Or.inr rfl)
      obtain ⟨groups, e1, e2, e3⟩ := ih (current ++ [w]) lines hinv
      refine ⟨groups, ?_, ?_, e3⟩
      · rw [← e1]
        show wrapGo measure maxWidth (w :: ws) lines current = _
        simp only [wrapGo, hcand]
        rw [if_pos hcond]
      · rw [e2, List.append_assoc]
        rfl
    · have hcne : current ≠ [] := by
        intro hc
        exact hcond (Or.inr (by simp [hc]))
      obtain ⟨groups2, e1, e2, e3⟩ := ih [w] (lines ++ [joinSpace current])
        (Or.inr (Or.inr rfl))
      refine ⟨current :: groups2, ?_, ?_, ?_⟩
      · show wrapGo measure maxWidth (w :: ws) lines current = _
        simp only [wrapGo, hcand]
        rw [if_neg hcond, e1]
        simp
      · show current ++ groups2.flatten = current ++ (w :: ws)
        rw [e2]
        rfl
      · intro g hg
        rcases List.mem_cons.mp hg with hga | hgt
        · subst hga
          exact ⟨hcne, hcur.resolve_left hcne⟩
        · exact e3 g hgt

/-- C6: the greedy wrap emits exactly a partition of the whitespace-split
words of the text into non-empty groups, in order — so no word is ever
dropped or split mid-word — each group rendered as its space-join, and
every emitted line either fits the rectangle width or is a single
(possibly overflowing) word. -/
theorem c6_wrap_text_sound (measure : String → Nat) (text : String) (maxWidth : Int) :
    ∃ groups : List (List String),
      wrap_text measure text maxWidth = groups.map joinSpace ∧
      groups.flatten = pySplit text ∧
      ∀ g ∈ groups, g ≠ [] ∧
        ((measure (joinSpace g) : Int) ≤ maxWidth ∨ g.length = 1) := by
  by_cases ht : text = ""
  · refine ⟨[], by simp [wrap_text, ht], by simp [ht]; rfl, by simp⟩
  · cases hw : (pySplit text).isEmpty with
    | true =>
      rw [List.isEmpty_iff] at hw
      refine ⟨[], ?_, by simp [hw], by simp⟩
      simp [wrap_text, ht, hw]
    | false =>
      obtain ⟨groups, e1, e2, e3⟩ :=
        wrapGo_spec measure maxWidth (pySplit text) [] [] (Or.inl rfl)
      refine ⟨groups, ?_, by simpa using e2, e3⟩
      simp only [wrap_text, ht, if_neg ht, hw]
      simpa using e1

/-! ### C7: silent vertical truncation in `_draw_text` -/

/-- The wrapped lines `_draw_text` computes before drawing. -/
def wrappedLines (measure : String → Nat × Nat) (field : TextField) (text : String) :
    List String :=
  wrap_text (fun s => (measure s).1) (drawContent field text) field.rect.width

lemma draw_text_eq_drawLinesGo (measure : String → Nat × Nat) (field : TextField)
    (text : String) :
    draw_text measure field text =
      drawLinesGo measure field (wrappedLines measure field text) field.rect.y := rfl

lemma drawLinesGo_ne_nil (measure : String → Nat × Nat) (field : TextField)
    (line : String) (rest : List String) (y : Int) :
    drawLinesGo measure field (line :: rest) y ≠ [] := by
  simp [drawLinesGo]

lemma drawLinesGo_spec (measure : String → Nat × Nat) (field : TextField) :
    ∀ (ls : List String) (y : Int),
      ∃ k : Nat,
        (drawLinesGo measure field ls y).map DrawnLine.text = ls.take k ∧
        k ≤ ls.length ∧
        (∀ d rest, drawLinesGo measure field ls y = d :: rest → d.y = y) ∧
        (∀ d ∈ drawLinesGo measure field ls y, d.x = alignX field (measure d.text).1) ∧
        (∀ pre a b post, drawLinesGo measure field ls y = pre ++ a :: b :: post →
          b.y = a.y + ((measure a.text).2 : Int) + field.style.line_spacing ∧
          a.y + ((measure a.text).2 : Int) + field.style.line_spacing ≤
            field.rect.y + field.rect.height) ∧
        (k < ls.length → ∀ pre a, drawLinesGo measure field ls y = pre ++ [a] →
          a.y + ((measure a.text).2 : Int) + field.style.line_spacing >
            field.rect.y + field.rect.height) := by
  intro ls
  induction ls with
  | nil =>
    intro y
    refine ⟨0, by simp [drawLinesGo], Nat.le_refl 0, ?_, ?_, ?_, ?_⟩
    · intro d rest hd
      simp [drawLinesGo] at hd
    · intro d hd
      simp [drawLinesGo] at hd
    · intro pre a b post hd
      simp [drawLinesGo] at hd
    · intro hk
      exact absurd hk (Nat.not_lt_zero 0)
  | cons line rest ih =>
    intro y
    by_cases hov : y + ((measure line).2 : Int) + field.style.line_spacing >
        field.rect.y + field.rect.height
    · have hD : drawLinesGo measure field (line :: rest) y =
          [{ text := line, x := alignX field (measure line).1, y := y }] := by
        simp [drawLinesGo, hov]
      refine ⟨1, by simp [hD], Nat.succ_le_succ (Nat.zero_le _), ?_, ?_, ?_, ?_⟩
      · intro d r hd
        rw [hD] at hd
        cases hd
        rfl
      · intro d hd
        rw [hD, List.mem_singleton] at hd
        subst hd
        rfl
      · intro pre a b post hd
        rw [hD] at hd
        have := congrArg List.length hd
        simp at this
        try omega
      · intro _ pre a hd
        rw [hD] at hd
        cases pre with
        | nil =>
          rw [List.nil_append] at hd
          obtain ⟨ha, -⟩ := List.cons_eq_cons.mp hd
          subst ha
          simpa using hov
        | cons p pre2 =>
          have := congrArg List.length hd
          simp at this
          try omega
    · have hD : drawLinesGo measure field (line :: rest) y =
          { text := line, x := alignX field (measure line).1, y := y } ::
            drawLinesGo measure field rest
              (y + ((measure line).2 : Int) + field.style.line_spacing) := by
        simp [drawLinesGo, hov]
      obtain ⟨k, h1, h2, h3, h4, h5, h6⟩ :=
        ih (y + ((measure line).2 : Int) + field.style.line_spacing)
      refine ⟨k + 1, by simp [hD, h1], Nat.succ_le_succ h2, ?_, ?_, ?_, ?_⟩
      · intro d r hd
        rw [hD] at hd
        cases hd
        rfl
      · intro d hd
        rw [hD, List.mem_cons] at hd
        rcases hd with hd | hd
        · subst hd; rfl
        · exact h4 d hd
      · intro pre a b post hd
        rw [hD] at hd
        cases pre with
        | nil =>
          rw [List.nil_append] at hd
          obtain ⟨ha, htail⟩ := List.cons_eq_cons.mp hd
          cases tD : drawLinesGo measure field rest
              (y + ((measure line).2 : Int) + field.style.line_spacing) with
          | nil => rw [tD] at htail; cases htail
          | cons d0 tl =>
            rw [tD] at htail
            obtain ⟨hb, -⟩ := List.cons_eq_cons.mp htail.symm
            have hy0 : d0.y = y + ((measure line).2 : Int) + field.style.line_spacing :=
              h3 d0 tl tD
            constructor
            · rw [hb, hy0, ← ha]
            · rw [← ha]
              simpa using le_of_not_lt hov
        | cons p pre2 =>
          rw [List.cons_append] at hd
          obtain ⟨-, htail⟩ := List.cons_eq_cons.mp hd
          exact h5 pre2 a b post htail
      · intro hk pre a hd
        rw [hD] at hd
        cases pre with
        | nil =>
          rw [List.nil_append] at hd
          obtain ⟨ha, htail⟩ := List.cons_eq_cons.mp hd
          have hklt : k < rest.length := Nat.lt_of_succ_lt_succ hk
          cases hrest : rest with
          | nil => rw [hrest] at hklt; exact absurd hklt (Nat.not_lt_zero k)
          | cons r0 rtail =>
            exfalso
            exact drawLinesGo_ne_nil measure field r0 rtail _ (by rw [← hrest, ← htail])
        | cons p pre2 =>
          rw [List.cons_append] at hd
          obtain ⟨-, htail⟩ := List.cons_eq_cons.mp hd
          exact h6 (Nat.lt_of_succ_lt_succ hk) pre2 a htail

/-- C7: `_draw_text` draws a prefix of the wrapped lines and stops silently
once the advanced cursor would pass the rectangle's bottom edge: the drawn
texts are `take k` of the wrapped lines, the first line sits at the
rectangle's top (`rect.y`, x per alignment from the rectangle's left edge),
each next line's cursor advances by the previous line's rendered height
plus the style's line spacing and only while still within the rectangle
bottom, and whenever lines are dropped (`k` short of all wrapped lines) the
last drawn line's advanced cursor exceeds the bottom edge; no failure is
possible — `draw_text` is total. -/
theorem c7_draw_text_truncates_silently (measure : String → Nat × Nat)
    (field : TextField) (text : String) :
    ∃ k : Nat,
      (draw_text measure field text).map DrawnLine.text =
        (wrappedLines measure field text).take k ∧
      k ≤ (wrappedLines measure field text).length ∧
      (∀ d rest, draw_text measure field text = d :: rest → d.y = field.rect.y) ∧
      (∀ d ∈ draw_text measure field text, d.x = alignX field (measure d.text).1) ∧
      (∀ pre a b post, draw_text measure field text = pre ++ a :: b :: post →
        b.y = a.y + ((measure a.text).2 : Int) + field.style.line_spacing ∧
        a.y + ((measure a.text).2 : Int) + field.style.line_spacing ≤
          field.rect.y + field.rect.height) ∧
      (k < (wrappedLines measure field text).length →
        ∀ pre a, draw_text measure field text = pre ++ [a] →
          a.y + ((measure a.text).2 : Int) + field.style.line_spacing >
            field.rect.y + field.rect.height) := by
  rw [draw_text_eq_drawLinesGo]
  exact drawLinesGo_spec measure field (wrappedLines measure field text) field.rect.y

end Snappost
